import Mathlib

/-!
Verification development for the pi-llm-usage extension.

The development shallowly embeds the two engines of the repository:
the usage normalization engine (credential resolution, provider response
mapping, error classification, duration formatting) from the providers
module, and the panel layout renderer from the index module.

Conventions of the embedding:
- JavaScript numbers are modelled as rationals.  NaN arithmetic is outside
  the model; where the code could only meet NaN through payload shapes the
  endpoints never produce (non-numeric usage fields), the model coerces to 0
  and the definition carries a comment saying so.
- Fallible JavaScript operations (negative String.repeat counts, iterating a
  non-iterable, property access on null) are modelled with Option or Except.
- JavaScript standard library services used by the code (JSON.parse, base64
  decoding, Date parsing, the clock) are abstract parameters gathered in a
  JsEnv record, so theorems quantify over every possible behaviour of those
  services.
- Styled terminal text is a list of segments, each either visible text or a
  zero-width escape sequence.
-/

namespace PiUsage

/-- A parsed JSON value, the result shape of JSON.parse. -/
inductive Json where
  | null : Json
  | bool (b : Bool) : Json
  | num (q : ℚ) : Json
  | str (s : String) : Json
  | arr (xs : List Json) : Json
  | obj (fields : List (String × Json)) : Json

/-- A thrown JavaScript error, as observed by the catch clauses of the code:
either an AbortError (cancellation) or any other error carrying a message. -/
inductive JsError where
  | abortError : JsError
  | otherErr (msg : String) : JsError
deriving DecidableEq

/-- Message of a JavaScript error (e.message). -/
def JsError.message : JsError → String
  | .abortError => "This operation was aborted"
  | .otherErr m => m

/-- Last binding of a key in an object field list.  JSON.parse keeps the last
occurrence of a duplicated key, so lookup prefers later fields. -/
def lookupLast : List (String × Json) → String → Option Json
  | [], _ => none
  | (k, v) :: rest, key =>
    match lookupLast rest key with
    | some r => some r
    | none => if k = key then some v else none

/-- JavaScript property read `j[k]` for a non-null base: fields of objects,
undefined (none) on primitives and arrays. -/
def jsField : Json → String → Option Json
  | .obj fs, k => lookupLast fs k
  | _, _ => none

/-- JavaScript truthiness of a JSON value (NaN, which is falsy, cannot arise
in the model). -/
def jsTruthy : Json → Bool
  | .null => false
  | .bool b => b
  | .num q => if q = 0 then false else true
  | .str s => if s = "" then false else true
  | .arr _ => true
  | .obj _ => true

/-- Truthiness of an optional JSON value (none models undefined). -/
def truthyOpt : Option Json → Bool
  | none => false
  | some j => jsTruthy j

/-- The `x ?? y` operator on optional JSON values: keep x unless it is
null or undefined. -/
def jsCoalesce : Option Json → Option Json → Option Json
  | some .null, y => y
  | none, y => y
  | some v, _ => some v

/-- `typeof j === "object"`: true for objects, arrays, and null. -/
def typeofObject : Json → Bool
  | .null => true
  | .arr _ => true
  | .obj _ => true
  | _ => false

/-- JavaScript ToNumber on the JSON shapes the code can meet.  Strings,
arrays and objects would coerce through string parsing (possibly to NaN);
the endpoints never produce them in numeric positions, and the model sends
them to 0. -/
def jsToNum : Json → ℚ
  | .num q => q
  | .bool true => 1
  | .bool false => 0
  | _ => 0

/-- Read a field expecting a string value; none when absent or not a string
(non-string values in these display-only positions are outside the model). -/
def strField (j : Json) (k : String) : Option String :=
  match jsField j k with
  | some (.str s) => some s
  | _ => none

/-- Truthiness of an optional string (`x ?` where x is string or undefined):
false for undefined and for the empty string. -/
def strTruthy : Option String → Bool
  | none => false
  | some s => if s = "" then false else true

/-! ## String helpers (JavaScript string operations) -/

/-- `" ".repeat n`-style repetition of a string, total form. -/
def repStr (s : String) : ℕ → String
  | 0 => ""
  | n + 1 => s ++ repStr s n

/-- A run of n spaces. -/
def spaces (n : ℕ) : String :=
  String.mk (List.replicate n ' ')

/-- JavaScript `s.repeat(count)` with an integer count: throws a RangeError
(none) when the count is negative. -/
def jsRepeat (s : String) (n : ℤ) : Option String :=
  if n < 0 then none else some (repStr s n.toNat)

/-- JavaScript `s.slice(0, n)` for a non-negative n. -/
def jsTake (s : String) (n : ℕ) : String :=
  String.mk (s.data.take n)

/-- JavaScript `s.padEnd(n)`. -/
def padEndStr (s : String) (n : ℕ) : String :=
  s ++ String.mk (List.replicate (n - s.length) ' ')

/-- JavaScript `s.padStart(n)`. -/
def padStartStr (s : String) (n : ℕ) : String :=
  String.mk (List.replicate (n - s.length) ' ') ++ s

/-- Floor of a rational, in the executable num/den form (equal to the
mathematical floor, see ratFloor_eq). -/
def ratFloor (q : ℚ) : ℤ :=
  q.num / q.den

/-- JavaScript Math.round: round half toward positive infinity. -/
def jsRound (q : ℚ) : ℤ :=
  ratFloor (q + 1/2)

/-- JavaScript truncation toward zero (the integer part used by `%`). -/
def jsTrunc (q : ℚ) : ℤ :=
  if 0 ≤ q then ratFloor q else -ratFloor (-q)

/-- JavaScript remainder `a % b` (sign follows the dividend). -/
def jsMod (a b : ℚ) : ℚ :=
  a - b * jsTrunc (a / b)

/-- Worker for jsSplitDots: walk the characters, cutting at each dot. -/
def splitDotsAux : List Char → List Char → List String
  | [], acc => [String.mk acc.reverse]
  | c :: cs, acc =>
    if c = '.' then String.mk acc.reverse :: splitDotsAux cs []
    else splitDotsAux cs (c :: acc)

/-- JavaScript `token.split(".")`: the dot-separated segments (the empty
string splits to one empty segment). -/
def jsSplitDots (s : String) : List String :=
  splitDotsAux s.data []

/-- Display of a number for the percentage text.  JavaScript prints decimal
expansions; only integral values appear in the rendered examples, and the
display never influences a width computation (rows are truncated/padded), so
non-integral values use a fraction display. -/
def qToString (q : ℚ) : String :=
  if q.den = 1 then toString q.num else toString q.num ++ "/" ++ toString q.den

/-! ## Duration / reset formatter (providers module, formatSeconds) -/

/-- formatSeconds from the providers module: "now" for non-positive counts,
otherwise the coarsest one or two units of days/hours/minutes. -/
def formatSeconds (seconds : ℚ) : String :=
  if seconds ≤ 0 then "now"
  else
    let days : ℤ := ratFloor (seconds / 86400)
    let hours : ℤ := ratFloor (jsMod seconds 86400 / 3600)
    let minutes : ℤ := ratFloor (jsMod seconds 3600 / 60)
    if days > 0 then
      toString days ++ "d" ++ (if hours > 0 then " " ++ toString hours ++ "h" else "")
    else if hours > 0 then
      toString hours ++ "h" ++ (if minutes > 0 then " " ++ toString minutes ++ "m" else "")
    else if minutes > 0 then
      toString minutes ++ "m"
    else "<1m"

/-! ## JavaScript standard-library environment -/

/-- Abstract behaviour of the JavaScript standard-library services used by
the providers module.  Quantifying over a JsEnv quantifies over every
behaviour of JSON.parse, base64 decoding, Date parsing, and the clock. -/
structure JsEnv where
  /-- Buffer.from(s, "base64").toString("utf-8").  Node base64 decoding never
  throws; invalid input yields an arbitrary string. -/
  decode : String → String
  /-- JSON.parse: a value on success, a thrown error otherwise. -/
  parse : String → Except JsError Json
  /-- Date.now() in milliseconds. -/
  nowMs : ℚ
  /-- new Date(iso).getTime(); none models an invalid date (NaN). -/
  dateMs : String → Option ℚ

/-! ## Credential resolver (providers module) -/

/-- readPiAuth: parse the pi auth store and return `data[provider] ?? null`.
The file argument is the outcome of reading and parsing the store; a read or
parse failure is caught and yields null.  Property access on a null root
throws inside the try block and is likewise caught.  A primitive root has no
provider property (undefined).  The provider entry is returned untyped, as
the code casts it without validation. -/
def readPiAuth (file : Except JsError Json) (provider : String) : Option Json :=
  match file with
  | .error _ => none
  | .ok .null => none
  | .ok data =>
    match jsField data provider with
    | some .null => none
    | some v => some v
    | none => none

/-- Normalize a base64url payload: translate URL-safe characters. -/
def b64urlSwap (payload : String) : String :=
  String.map (fun c => if c = '-' then '+' else if c = '_' then '/' else c) payload

/-- Restore base64 padding: append `"=".repeat((4 - len % 4) % 4)`. -/
def b64pad (s : String) : String :=
  s ++ String.mk (List.replicate ((4 - s.length % 4) % 4) '=')

/-- The full preparation of the middle JWT segment before decoding. -/
def b64urlPrep (payload : String) : String :=
  b64pad (b64urlSwap payload)

/-- The later probes of the JWT payload: a top-level string email, then the
namespaced auth object email (typeof object, truthy email, string email). -/
def extractEmailTail (data : Json) : Option String :=
  match strField data "email" with
  | some e => some e
  | none =>
    match jsField data "https://api.openai.com/auth" with
    | some a =>
      if typeofObject a ∧ truthyOpt (jsField a "email") ∧ (strField a "email").isSome then
        strField a "email"
      else none
    | none => none

/-- extractEmailFromJwt: best-effort decode of the middle token segment.
Any failure (fewer than two segments, JSON.parse throwing on the decoded
bytes, a null payload object) yields none; otherwise the payload is probed
for a namespaced profile email, then a top-level email, then a namespaced
auth email. -/
def extractEmailFromJwt (env : JsEnv) (token : String) : Option String :=
  let parts := jsSplitDots token
  if parts.length < 2 then none
  else
    let payload := parts.getD 1 ""
    match env.parse (env.decode (b64urlPrep payload)) with
    | .error _ => none
    | .ok .null => none
    | .ok data =>
      let profile := jsCoalesce (jsField data "https://api.openai.com/profile")
        (jsField data "https://api.anthropic.com/profile")
      match profile with
      | some p =>
        if jsTruthy p ∧ typeofObject p ∧ (jsField p "email").isSome ∧ (strField p "email").isSome then
          strField p "email"
        else extractEmailTail data
      | none => extractEmailTail data

/-- The shape read from the Codex CLI auth store. -/
structure ReadCodexAuth where
  accessToken : Json
  email : Option String

/-- The value of `data.tokens?.access_token`. -/
def codexTokenOf (data : Json) : Option Json :=
  (jsField data "tokens").bind (fun t => jsField t "access_token")

/-- readCodexAuth: parse the Codex CLI store; yields a credential only when
`data.tokens?.access_token` is truthy.  Read and parse failures, a null root
(whose property access throws and is caught), and missing keys all yield
null. -/
def readCodexAuth (env : JsEnv) (file : Except JsError Json) : Option ReadCodexAuth :=
  match file with
  | .error _ => none
  | .ok .null => none
  | .ok data =>
    match codexTokenOf data with
    | some tok =>
      if jsTruthy tok then
        some ⟨tok, match tok with
          | .str s => extractEmailFromJwt env s
          | _ => none⟩
      else none
    | none => none

/-! ## Data model (providers module) -/

/-- One quota bucket. -/
structure UsageWindow where
  label : String
  percentUsed : ℚ
  resetIn : Option String := none
deriving DecidableEq

/-- A static provider link. -/
structure ProviderLink where
  label : String
  url : String
deriving DecidableEq

/-- The uniform per-provider result. -/
structure ProviderUsage where
  provider : String
  plan : Option String := none
  account : Option String := none
  windows : List UsageWindow
  links : List ProviderLink
  error : Option String := none
deriving DecidableEq

/-- Static Anthropic links. -/
def ANTHROPIC_LINKS : List ProviderLink :=
  [⟨"dashboard", "https://console.anthropic.com/settings/usage"⟩,
   ⟨"status", "https://status.anthropic.com"⟩]

/-- Static Codex links. -/
def CODEX_LINKS : List ProviderLink :=
  [⟨"dashboard", "https://chatgpt.com/codex/settings/usage"⟩,
   ⟨"status", "https://status.openai.com"⟩]

/-! ## Provider usage clients (providers module) -/

/-- Outcome of the usage fetch call: the promise rejects with an error, or a
response arrives with a status, a body text (res.text() carries its own
catch and never fails), and the outcome of res.json(). -/
inductive FetchOutcome where
  | threw (e : JsError) : FetchOutcome
  | response (status : ℕ) (text : String) (json : Except JsError Json) : FetchOutcome

/-- res.ok: status in the 2xx range. -/
def resOk (status : ℕ) : Bool :=
  decide (200 ≤ status) && decide (status < 300)

/-- The HTTP error string: status plus the first 100 characters of the body. -/
def httpErrorMsg (status : ℕ) (text : String) : String :=
  "HTTP " ++ toString status ++ ": " ++ jsTake text 100

/-- Node's TypeError message for property access on a null JSON root (the
real message also names the property being read). -/
def typeErrorNull : String :=
  "Cannot read properties of null"

/-- formatResetTimestamp applied to a resets_at value: take the timestamp
(an ISO string through Date parsing, or directly a millisecond number), and
format `max 0 (floor ((reset - now) / 1000))` seconds.  An invalid date
(NaN) flows through the arithmetic to the final fallback branch. -/
def formatResetTimestamp (env : JsEnv) (v : Json) : String :=
  match (match v with
         | .str s => env.dateMs s
         | .num q => some q
         | _ => none) with
  | none => "<1m"
  | some ms => formatSeconds ((max 0 (ratFloor ((ms - env.nowMs) / 1000)) : ℤ) : ℚ)

/-- One Anthropic mapping entry: a window is produced only when the field is
present with a present, non-null utilization; resets_at contributes a
resetIn only when truthy. -/
def anthropicWindow (env : JsEnv) (data : Json) (key label : String) : Option UsageWindow :=
  match jsField data key with
  | some fh =>
    match jsField fh "utilization" with
    | some .null => none
    | some u =>
      some { label := label
             percentUsed := jsToNum u
             resetIn :=
               match jsField fh "resets_at" with
               | some r => if jsTruthy r then some (formatResetTimestamp env r) else none
               | none => none }
    | none => none
  | none => none

/-- The four Anthropic window pushes (five_hour, seven_day, seven_day_opus,
seven_day_sonnet) in source order. -/
def anthropicWindows (env : JsEnv) (data : Json) : List UsageWindow :=
  (anthropicWindow env data "five_hour" "5h session").toList ++
  (anthropicWindow env data "seven_day" "Weekly").toList ++
  (anthropicWindow env data "seven_day_opus" "Weekly (Opus)").toList ++
  (anthropicWindow env data "seven_day_sonnet" "Weekly (Sonnet)").toList

/-- The token-derived email for an access value of arbitrary JSON shape: a
non-string access token makes token.split throw inside extractEmailFromJwt,
which its catch turns into undefined. -/
def accessEmail (env : JsEnv) (access : Option Json) : Option String :=
  match access with
  | some (.str s) => extractEmailFromJwt env s
  | _ => none

/-- fetchAnthropicUsage.  Inputs beyond the environment: the auth store read
outcome, the profile endpoint result (fetchAnthropicProfileEmail swallows
every failure, so it is just an optional email; it is only consulted when
the token yields no email, mirroring the short-circuit of ??), and the usage
fetch outcome. -/
def fetchAnthropicUsage (env : JsEnv) (piFile : Except JsError Json)
    (profileEmail : Option String) (usage : FetchOutcome) : ProviderUsage :=
  match readPiAuth piFile "anthropic" with
  | none =>
    { provider := "Anthropic", error := some "No OAuth credentials found",
      windows := [], links := ANTHROPIC_LINKS }
  | some auth =>
    if jsTruthy auth then
      let account := (accessEmail env (jsField auth "access")).orElse
        (fun _ => profileEmail.orElse (fun _ => strField auth "accountId"))
      match usage with
      | .threw .abortError =>
        { provider := "Anthropic", account := account, error := some "Cancelled",
          windows := [], links := ANTHROPIC_LINKS }
      | .threw (.otherErr m) =>
        { provider := "Anthropic", account := account, error := some m,
          windows := [], links := ANTHROPIC_LINKS }
      | .response status text json =>
        if resOk status then
          match json with
          | .error .abortError =>
            { provider := "Anthropic", account := account, error := some "Cancelled",
              windows := [], links := ANTHROPIC_LINKS }
          | .error (.otherErr m) =>
            { provider := "Anthropic", account := account, error := some m,
              windows := [], links := ANTHROPIC_LINKS }
          | .ok .null =>
            { provider := "Anthropic", account := account, error := some typeErrorNull,
              windows := [], links := ANTHROPIC_LINKS }
          | .ok data =>
            { provider := "Anthropic", account := account,
              windows := anthropicWindows env data, links := ANTHROPIC_LINKS }
        else
          { provider := "Anthropic", account := account,
            error := some (httpErrorMsg status text),
            windows := [], links := ANTHROPIC_LINKS }
    else
      { provider := "Anthropic", error := some "No OAuth credentials found",
        windows := [], links := ANTHROPIC_LINKS }

/-- `w?.used_percent ?? 0` for an optional rate-limit window. -/
def usedPct (w : Option Json) : ℚ :=
  match w with
  | none => 0
  | some j =>
    match jsField j "used_percent" with
    | some .null => 0
    | some v => jsToNum v
    | none => 0

/-- `w?.reset_after_seconds != null ? formatSeconds(...) : undefined`. -/
def resetOfWin (w : Option Json) : Option String :=
  match w with
  | none => none
  | some j =>
    match jsField j "reset_after_seconds" with
    | some .null => none
    | some v => some (formatSeconds (jsToNum v))
    | none => none

/-- Strip a leading "GPT-" (the anchored regex replace). -/
def dropGptLead (s : String) : String :=
  match s.data with
  | 'G' :: 'P' :: 'T' :: '-' :: rest => String.mk rest
  | _ => s

/-- Whether pat is an initial run of l. -/
def leadsWith : List Char → List Char → Bool
  | [], _ => true
  | _ :: _, [] => false
  | p :: ps, c :: cs => p = c && leadsWith ps cs

/-- Character-list worker for the first-occurrence replacement of
"-Codex-" by a space. -/
def swapCodexAux : List Char → List Char
  | [] => []
  | c :: cs =>
    if leadsWith "-Codex-".data (c :: cs) then ' ' :: (c :: cs).drop 7
    else c :: swapCodexAux cs

/-- Replace the first occurrence of "-Codex-" by a single space (the
non-global regex replace). -/
def swapCodexMid (s : String) : String :=
  String.mk (swapCodexAux s.data)

/-- The non-null body of one additional_rate_limits entry: entries with a
falsy limit_name or rate_limit are skipped; entries where neither window
shows usage are skipped; a truthy non-string limit_name makes .replace
throw; otherwise a window is surfaced with the shortened label, the larger
of the two percentages, and the relative reset of the secondary window. -/
def codexExtraCore (extra : Json) : Except JsError (Option UsageWindow) :=
  let ln := jsField extra "limit_name"
  if ¬ truthyOpt ln then .ok none
  else
    let rl := jsField extra "rate_limit"
    if ¬ truthyOpt rl then .ok none
    else
      let pw := rl.bind (fun r => jsField r "primary_window")
      let sw := rl.bind (fun r => jsField r "secondary_window")
      if ¬ (usedPct pw > 0 ∨ usedPct sw > 0) then .ok none
      else
        match ln with
        | some (.str name) =>
          .ok (some { label := swapCodexMid (dropGptLead name)
                      percentUsed := max (usedPct pw) (usedPct sw)
                      resetIn := resetOfWin sw })
        | _ => .error (.otherErr "extra.limit_name.replace is not a function")

/-- One entry dispatch: a null entry throws on the first property access,
any other shape runs the body above. -/
def codexExtraWindow (extra : Json) : Except JsError (Option UsageWindow) :=
  match extra with
  | .null => .error (.otherErr typeErrorNull)
  | _ => codexExtraCore extra

/-- The for-of loop over additional_rate_limits entries. -/
def codexExtraWindows : List Json → Except JsError (List UsageWindow)
  | [] => .ok []
  | x :: xs => do
    let w ← codexExtraWindow x
    let rest ← codexExtraWindows xs
    .ok (w.toList ++ rest)

/-- Iterating the additional_rate_limits value: arrays loop over their
elements; strings are iterable and every character entry is skipped (no
limit_name property); other truthy values are not iterable and throw. -/
def codexIterExtras (v : Json) : Except JsError (List UsageWindow) :=
  match v with
  | .arr xs => codexExtraWindows xs
  | .str _ => .ok []
  | _ => .error (.otherErr "data.additional_rate_limits is not iterable")

/-- A main Codex window (`rate_limit.primary_window` / secondary): pushed
only when the window value is truthy; percentUsed reads used_percent
directly (missing values are modelled as 0, see jsToNum). -/
def codexMainWindow (data : Json) (key label : String) : List UsageWindow :=
  match (jsField data "rate_limit").bind (fun rl => jsField rl key) with
  | some w =>
    if jsTruthy w then
      [{ label := label, percentUsed := usedPct (some w), resetIn := resetOfWin (some w) }]
    else []
  | none => []

/-- The Code Review window: pushed only when the primary window is truthy
and its used_percent is positive. -/
def codexCodeReviewWindow (data : Json) : List UsageWindow :=
  match (jsField data "code_review_rate_limit").bind (fun rl => jsField rl "primary_window") with
  | some cr =>
    if jsTruthy cr then
      if usedPct (some cr) > 0 then
        [{ label := "Code Review", percentUsed := usedPct (some cr),
           resetIn := resetOfWin (some cr) }]
      else []
    else []
  | none => []

/-- The full Codex window build on a non-null parsed body: main windows,
then the additional per-model limits (skipped when the field is falsy),
then the code review window. -/
def codexWindows (data : Json) : Except JsError (List UsageWindow) := do
  let extras ←
    match jsField data "additional_rate_limits" with
    | some v => if jsTruthy v then codexIterExtras v else .ok []
    | none => .ok []
  .ok (codexMainWindow data "primary_window" "5h session" ++
       codexMainWindow data "secondary_window" "Weekly" ++
       extras ++
       codexCodeReviewWindow data)

/-- The resolved Codex access token: `piAuth?.access ?? codexAuth?.accessToken`. -/
def codexAccessToken (env : JsEnv) (piFile codexFile : Except JsError Json) : Option Json :=
  jsCoalesce ((readPiAuth piFile "openai-codex").bind (fun a => jsField a "access"))
    ((readCodexAuth env codexFile).map (fun c => c.accessToken))

/-- fetchCodexUsage.  Inputs beyond the environment: the two credential
store read outcomes and the usage fetch outcome. -/
def fetchCodexUsage (env : JsEnv) (piFile codexFile : Except JsError Json)
    (usage : FetchOutcome) : ProviderUsage :=
  let piAuth := readPiAuth piFile "openai-codex"
  let codexAuth := readCodexAuth env codexFile
  match codexAccessToken env piFile codexFile with
  | none =>
    { provider := "OpenAI Codex", error := some "No OAuth credentials found",
      windows := [], links := CODEX_LINKS }
  | some tok =>
    if jsTruthy tok then
      let account := (accessEmail env (some tok)).orElse
        (fun _ => (codexAuth.bind (fun c => c.email)).orElse
          (fun _ => piAuth.bind (fun a => strField a "accountId")))
      match usage with
      | .threw .abortError =>
        { provider := "OpenAI Codex", account := account, error := some "Cancelled",
          windows := [], links := CODEX_LINKS }
      | .threw (.otherErr m) =>
        { provider := "OpenAI Codex", account := account, error := some m,
          windows := [], links := CODEX_LINKS }
      | .response status text json =>
        if resOk status then
          match json with
          | .error .abortError =>
            { provider := "OpenAI Codex", account := account, error := some "Cancelled",
              windows := [], links := CODEX_LINKS }
          | .error (.otherErr m) =>
            { provider := "OpenAI Codex", account := account, error := some m,
              windows := [], links := CODEX_LINKS }
          | .ok .null =>
            { provider := "OpenAI Codex", account := account, error := some typeErrorNull,
              windows := [], links := CODEX_LINKS }
          | .ok data =>
            match codexWindows data with
            | .error .abortError =>
              { provider := "OpenAI Codex", account := account, error := some "Cancelled",
                windows := [], links := CODEX_LINKS }
            | .error (.otherErr m) =>
              { provider := "OpenAI Codex", account := account, error := some m,
                windows := [], links := CODEX_LINKS }
            | .ok ws =>
              { provider := "OpenAI Codex", account := account,
                plan := strField data "plan_type",
                windows := ws, links := CODEX_LINKS }
        else
          { provider := "OpenAI Codex", account := account,
            error := some (httpErrorMsg status text),
            windows := [], links := CODEX_LINKS }
    else
      { provider := "OpenAI Codex", error := some "No OAuth credentials found",
        windows := [], links := CODEX_LINKS }

/-! ## Styled terminal text

The index module manipulates strings that mix visible glyphs with zero-width
style and hyperlink escape sequences.  The embedding separates the two: a
styled text is a list of segments, each a run of visible characters or an
escape sequence of width zero.  The external pi-tui helpers visibleWidth and
truncateToWidth, and the host theme, act on this representation. -/

/-- One segment of styled text. -/
inductive Seg where
  | vis (s : String) : Seg
  | esc (s : String) : Seg
deriving DecidableEq

/-- Styled text. -/
abbrev SText := List Seg

/-- A plain visible string as styled text. -/
def vstr (s : String) : SText := [Seg.vis s]

/-- Width of one segment: escape sequences count zero. -/
def segWidth : Seg → ℕ
  | .vis s => s.length
  | .esc _ => 0

/-- Modelled from the spec: the escape-sequence-aware width-measuring helper
consumed from pi-tui (visibleWidth), whose code is outside the repository.
Contract: visible glyphs count, styling and hyperlink escapes do not. -/
def visibleWidth (t : SText) : ℕ :=
  (t.map segWidth).sum

/-- The host terminal styling facility, § external interfaces: fg and bold
produce styled text whose visible width equals the width of their input. -/
structure Theme where
  fg : String → SText → SText
  bold : SText → SText
  fg_width : ∀ r t, visibleWidth (fg r t) = visibleWidth t
  bold_width : ∀ t, visibleWidth (bold t) = visibleWidth t

/-- Escape-aware prefix of styled text: keeps escapes, takes visible
characters up to the budget. -/
def takeVis : SText → ℕ → SText
  | [], _ => []
  | .esc s :: rest, n => .esc s :: takeVis rest n
  | .vis s :: rest, n =>
    if s.length ≤ n then .vis s :: takeVis rest (n - s.length)
    else [.vis (jsTake s n)]

/-- Modelled from the spec: the escape-sequence-aware width-truncating
helper consumed from pi-tui (truncateToWidth with an empty ellipsis and
padding enabled), whose code is outside the repository.  Contract: the
result is exactly the requested visible width — content is truncated when
too wide and padded with spaces when too narrow. -/
def truncateToWidth (t : SText) (w : ℕ) : SText :=
  takeVis t w ++ vstr (spaces (w - visibleWidth (takeVis t w)))

/-- The OSC 8 hyperlink wrapper from the index module: pure escape
sequences around the text. -/
def hyperlink (url : String) (t : SText) : SText :=
  Seg.esc ("\x1b]8;;" ++ url ++ "\x1b\\") :: t ++ [Seg.esc "\x1b]8;;\x1b\\"]

/-- renderLinks: each link as a clickable [label], joined by spaces. -/
def renderLinks (links : List ProviderLink) (theme : Theme) : SText :=
  List.intercalate (vstr " ")
    (links.map (fun l =>
      hyperlink l.url
        (theme.fg "dim" (vstr "[") ++ theme.fg "muted" (vstr l.label) ++
         theme.fg "dim" (vstr "]"))))

/-- linksVisibleWidth: the width formula of the index module — each link
is label plus two brackets, links joined by single spaces. -/
def linksVisibleWidth (links : List ProviderLink) : ℕ :=
  if links.length = 0 then 0
  else (links.map (fun l => l.label.length + 2)).sum + (links.length - 1)

/-- fitTextEnd: unchanged when it fits; a bare slice when the budget is at
most 3; otherwise a slice keeping room for a trailing ellipsis. -/
def fitTextEnd (text : String) (maxLength : ℕ) : String :=
  if text.length ≤ maxLength then text
  else if maxLength ≤ 3 then jsTake text maxLength
  else jsTake text (maxLength - 3) ++ "..."

/-- The trailing reset note of a usage row (`win.resetIn ? ... : ""`). -/
def resetSegOf (theme : Theme) (resetIn : Option String) : SText :=
  if strTruthy resetIn then
    theme.fg "dim" (vstr (" resets in " ++ resetIn.getD ""))
  else []

/-- renderUsageRow: label column, 8-cell gauge of what is left, remaining
percentage, optional reset note.  The two string repetitions building the
gauge throw on negative counts, making the row partial; the maxWidth
parameter is accepted and unused, as in the source. -/
def renderUsageRow (win : UsageWindow) (labelWidth : ℕ) (maxWidth : ℤ)
    (theme : Theme) : Option SText :=
  let remaining : ℚ := 100 - win.percentUsed
  let color : String :=
    if remaining ≤ 20 then "error"
    else if remaining ≤ 50 then "warning"
    else "success"
  let gaugeWidth : ℤ := 8
  let filled : ℤ := jsRound (remaining / 100 * 8)
  let emptyCnt : ℤ := gaugeWidth - filled
  match jsRepeat "▮" filled, jsRepeat "·" emptyCnt with
  | some fillStr, some emptyStr =>
    let gauge := theme.fg "dim" (vstr "[") ++ theme.fg color (vstr fillStr) ++
      theme.fg "dim" (vstr emptyStr) ++ theme.fg "dim" (vstr "]")
    let label := padEndStr win.label labelWidth
    let pct := padStartStr (qToString remaining ++ "%") 4
    some (theme.fg "text" (vstr label) ++ vstr " " ++ gauge ++ vstr " " ++
      theme.fg color (vstr pct) ++ vstr " left" ++ resetSegOf theme win.resetIn)
  | _, _ => none

/-! ## Panel layout renderer (index module) -/

/-- The render state owned by the overlay controller. -/
inductive RState where
  | loading : RState
  | done : RState
  | error : RState

/-- Horizontal padding inside the borders. -/
def contentPadding : ℕ := 2

/-- Vertical padding rows. -/
def verticalPadding : ℕ := contentPadding

/-- Reduced padding above the bottom border. -/
def bottomEdgePadding : ℕ := verticalPadding - 1

/-- The generic content row: border, padding, content truncated and padded
to exactly the content area, padding, border. -/
def panelRow (theme : Theme) (contentArea : ℕ) (c : SText) : SText :=
  theme.fg "border" (vstr "│") ++ vstr (spaces contentPadding) ++
  truncateToWidth c contentArea ++ vstr (spaces contentPadding) ++
  theme.fg "border" (vstr "│")

/-- The exact-width row used by the footer: the caller supplies the visible
length, and only the remaining gap (clamped at zero) is padded. -/
def rowExact (theme : Theme) (contentArea : ℕ) (content : SText)
    (visibleLen : ℕ) : SText :=
  theme.fg "border" (vstr "│") ++ vstr (spaces contentPadding) ++ content ++
  vstr (spaces (contentArea - visibleLen)) ++ vstr (spaces contentPadding) ++
  theme.fg "border" (vstr "│")

/-- An empty padding row. -/
def emptyRow (theme : Theme) (innerW : ℕ) : SText :=
  theme.fg "border" (vstr "│") ++ vstr (spaces innerW) ++
  theme.fg "border" (vstr "│")

/-- The shared label width: the longest window label across all results. -/
def sharedLW (results : List ProviderUsage) : ℕ :=
  results.foldl (fun m r => r.windows.foldl (fun m w => max m w.label.length) m) 0

/-- The per-window rows of one provider section (the inner for loop, which
fails as soon as one row rendering fails). -/
def windowRows (theme : Theme) (contentArea innerW slw : ℕ) :
    List UsageWindow → Option (List SText)
  | [] => some []
  | w :: ws =>
    match renderUsageRow w slw ((innerW : ℤ) - 2) theme,
        windowRows theme contentArea innerW slw ws with
    | some t, some rest => some (panelRow theme contentArea t :: rest)
    | _, _ => none

/-- The rows below one provider header: the error row, the no-data row, or
the window rows. -/
def sectionRest (theme : Theme) (contentArea innerW slw : ℕ)
    (r : ProviderUsage) : Option (List SText) :=
  if strTruthy r.error then
    some [panelRow theme contentArea (theme.fg "error" (vstr ("⚠ " ++ r.error.getD "")))]
  else if r.windows.length = 0 then
    some [panelRow theme contentArea (theme.fg "muted" (vstr "No usage data available"))]
  else
    windowRows theme contentArea innerW slw r.windows

/-- One provider section: header row with plan suffix, right-aligned
account parenthetical and links, a spacer row, then the error row, the
no-data row, or the window rows. -/
def sectionFor (theme : Theme) (innerW contentArea slw : ℕ)
    (r : ProviderUsage) : Option (List SText) :=
  let providerLabel :=
    if strTruthy r.plan then r.provider ++ " (" ++ r.plan.getD "" ++ ")" else r.provider
  let linksStr := renderLinks r.links theme
  let lw := linksVisibleWidth r.links
  let plw := visibleWidth (vstr providerLabel)
  let accountMaxWidth : ℤ := max 0 (min 40 ((contentArea : ℤ) - plw - lw - 2))
  let accountPart : String :=
    if strTruthy r.account ∧ accountMaxWidth > 2 then
      "(" ++ fitTextEnd (r.account.getD "") (accountMaxWidth - 2).toNat ++ ")"
    else ""
  let rightClusterWidth : ℕ :=
    lw + (if accountPart = "" then 0 else accountPart.length + 1)
  let gap : ℕ := (max 1 ((contentArea : ℤ) - plw - rightClusterWidth)).toNat
  let header := panelRow theme contentArea
    (theme.fg "accent" (theme.bold (vstr providerLabel)) ++ vstr (spaces gap) ++
     (if accountPart = "" then [] else theme.fg "muted" (vstr accountPart) ++ vstr " ") ++
     linksStr)
  match sectionRest theme contentArea innerW slw r with
  | some rest => some (header :: emptyRow theme innerW :: rest)
  | none => none

/-- All provider sections, separated by vertical padding except after the
last. -/
def sectionsFor (theme : Theme) (innerW contentArea slw : ℕ) :
    List ProviderUsage → Option (List SText)
  | [] => some []
  | [r] => sectionFor theme innerW contentArea slw r
  | r :: rest =>
    match sectionFor theme innerW contentArea slw r,
        sectionsFor theme innerW contentArea slw rest with
    | some s, some more =>
      some (s ++ List.replicate verticalPadding (emptyRow theme innerW) ++ more)
    | _, _ => none

/-- The footer: a clickable left label fitted to the space left of the
close hint, an exact gap, and the close hint. -/
def footerRow (theme : Theme) (contentArea : ℕ) : SText :=
  let footerRight := "esc/q to close"
  let footerRightWidth := visibleWidth (vstr footerRight)
  let footerLeftMax : ℕ := (max 0 ((contentArea : ℤ) - footerRightWidth - 1)).toNat
  let footerLeftLabel := fitTextEnd "[star/fork]" footerLeftMax
  let footerLeft : SText :=
    if footerLeftLabel = "" then []
    else hyperlink "https://github.com/taviks/pi-llm-usage" (vstr footerLeftLabel)
  let footerLeftWidth := footerLeftLabel.length
  let footerGap : ℕ := (max 0 ((contentArea : ℤ) - footerLeftWidth - footerRightWidth)).toNat
  rowExact theme contentArea
    (theme.fg "dim" footerLeft ++ vstr (spaces footerGap) ++ theme.fg "dim" (vstr footerRight))
    (footerLeftWidth + footerGap + footerRightWidth)

/-- The body between the vertical paddings, by state. -/
def panelBody (theme : Theme) (innerW contentArea : ℕ) (state : RState)
    (results : List ProviderUsage) : Option (List SText) :=
  match state with
  | .loading => some [panelRow theme contentArea (theme.fg "muted" (vstr "Fetching usage data..."))]
  | .error => some [panelRow theme contentArea (theme.fg "error" (vstr "Failed to fetch usage data"))]
  | .done => sectionsFor theme innerW contentArea (sharedLW results) results

/-- renderPanel: top border, vertical padding, body, vertical padding,
footer, reduced padding, bottom border.  The width argument is the column
count granted by the host overlay. -/
def renderPanel (width : ℕ) (theme : Theme) (state : RState)
    (results : List ProviderUsage) : Option (List SText) :=
  let innerW := width - 2
  let contentArea := innerW - contentPadding * 2
  match panelBody theme innerW contentArea state results with
  | some body =>
    some ([theme.fg "border" (vstr ("╭" ++ repStr "─" innerW ++ "╮"))] ++
      List.replicate verticalPadding (emptyRow theme innerW) ++
      body ++
      List.replicate verticalPadding (emptyRow theme innerW) ++
      [footerRow theme contentArea] ++
      List.replicate bottomEdgePadding (emptyRow theme innerW) ++
      [theme.fg "border" (vstr ("╰" ++ repStr "─" innerW ++ "╯"))])
  | none => none

/-! ## Helper lemmas -/

theorem strLen_mk (l : List Char) : (String.mk l).length = l.length := rfl

theorem jsTake_length (s : String) (n : ℕ) : (jsTake s n).length = min n s.length := by
  show (s.data.take n).length = min n s.data.length
  exact List.length_take n s.data

theorem spaces_length (n : ℕ) : (spaces n).length = n := by
  show (List.replicate n ' ').length = n
  exact List.length_replicate n ' '

theorem repStr_length (s : String) (n : ℕ) : (repStr s n).length = n * s.length := by
  induction n with
  | zero => simp [repStr]
  | succ k ih => simp [repStr, String.length_append, ih]; ring

theorem fitTextEnd_length (text : String) (m : ℕ) :
    (fitTextEnd text m).length = min text.length m := by
  unfold fitTextEnd
  split_ifs with h1 h2
  · omega
  · rw [jsTake_length]; omega
  · rw [String.length_append, jsTake_length]
    have : ("..." : String).length = 3 := rfl
    omega

theorem ratFloor_eq (q : ℚ) : ratFloor q = ⌊q⌋ := by
  rw [ratFloor, Rat.floor_def]

theorem floor_intCast_div (s : ℤ) (d : ℕ) : ⌊(s : ℚ) / ((d : ℕ) : ℚ)⌋ = s / (d : ℤ) :=
  Rat.floor_intCast_div_natCast s d

theorem jsMod_int (s : ℤ) (hs : 0 ≤ s) (d : ℕ) :
    jsMod (s : ℚ) ((d : ℕ) : ℚ) = ((s % (d : ℤ) : ℤ) : ℚ) := by
  unfold jsMod jsTrunc
  have h0 : (0 : ℚ) ≤ (s : ℚ) / ((d : ℕ) : ℚ) := by
    apply div_nonneg
    · exact_mod_cast hs
    · positivity
  rw [if_pos h0, ratFloor_eq, floor_intCast_div, Int.emod_def]
  push_cast
  ring

/-! ## C8: formatSeconds -/

/-- formatSeconds at an integer input, computed in integer arithmetic. -/
theorem formatSeconds_int (s : ℤ) :
    ((s : ℚ) ≤ 0 → formatSeconds (s : ℚ) = "now") ∧
    (0 < s →
      formatSeconds (s : ℚ) =
        (if 0 < s / 86400 then
          toString (s / 86400) ++ "d" ++
            (if 0 < s % 86400 / 3600 then " " ++ toString (s % 86400 / 3600) ++ "h" else "")
        else if 0 < s % 86400 / 3600 then
          toString (s % 86400 / 3600) ++ "h" ++
            (if 0 < s % 3600 / 60 then " " ++ toString (s % 3600 / 60) ++ "m" else "")
        else if 0 < s % 3600 / 60 then toString (s % 3600 / 60) ++ "m"
        else "<1m")) := by
  refine ⟨fun h => by simp [formatSeconds, h], fun hpos => ?_⟩
  have hns : ¬ (s : ℚ) ≤ 0 := by exact_mod_cast not_le.mpr hpos
  have hd : ratFloor ((s : ℚ) / 86400) = s / 86400 := by
    rw [ratFloor_eq]
    have h := floor_intCast_div s 86400; norm_num at h ⊢; exact h
  have hm1 : jsMod (s : ℚ) 86400 = ((s % 86400 : ℤ) : ℚ) := by
    have h := jsMod_int s (le_of_lt hpos) 86400; norm_num at h ⊢; exact h
  have hm2 : jsMod (s : ℚ) 3600 = ((s % 3600 : ℤ) : ℚ) := by
    have h := jsMod_int s (le_of_lt hpos) 3600; norm_num at h ⊢; exact h
  have hh : ratFloor (jsMod (s : ℚ) 86400 / 3600) = s % 86400 / 3600 := by
    rw [ratFloor_eq, hm1]
    have h := floor_intCast_div (s % 86400) 3600; norm_num at h ⊢; exact h
  have hmin : ratFloor (jsMod (s : ℚ) 3600 / 60) = s % 3600 / 60 := by
    rw [ratFloor_eq, hm2]
    have h := floor_intCast_div (s % 3600) 60; norm_num at h ⊢; exact h
  simp only [formatSeconds, if_neg hns, hd, hh, hmin]

/-- C8: formatSeconds returns "now" for every non-positive integer second
count; for positive counts it decomposes into days, hours, minutes by
integer floor division by 86400, 3600, 60 on successive remainders and
prints the coarsest one or two units; 90000 gives "1d 1h", 5400 gives
"1h 30m", 45 gives "<1m". -/
theorem formatSeconds_characterization :
    (∀ s : ℤ, ((s : ℚ) ≤ 0 → formatSeconds (s : ℚ) = "now") ∧
      (0 < s →
        formatSeconds (s : ℚ) =
          (if 0 < s / 86400 then
            toString (s / 86400) ++ "d" ++
              (if 0 < s % 86400 / 3600 then " " ++ toString (s % 86400 / 3600) ++ "h" else "")
          else if 0 < s % 86400 / 3600 then
            toString (s % 86400 / 3600) ++ "h" ++
              (if 0 < s % 3600 / 60 then " " ++ toString (s % 3600 / 60) ++ "m" else "")
          else if 0 < s % 3600 / 60 then toString (s % 3600 / 60) ++ "m"
          else "<1m"))) ∧
    formatSeconds 90000 = "1d 1h" ∧ formatSeconds 5400 = "1h 30m" ∧
    formatSeconds 45 = "<1m" := by
  refine ⟨formatSeconds_int, ?_, ?_, ?_⟩
  · have h := (formatSeconds_int 90000).2 (by norm_num)
    rw [show (((90000 : ℤ) : ℚ)) = (90000 : ℚ) by norm_num] at h
    rw [h]; decide
  · have h := (formatSeconds_int 5400).2 (by norm_num)
    rw [show (((5400 : ℤ) : ℚ)) = (5400 : ℚ) by norm_num] at h
    rw [h]; decide
  · have h := (formatSeconds_int 45).2 (by norm_num)
    rw [show (((45 : ℤ) : ℚ)) = (45 : ℚ) by norm_num] at h
    rw [h]; decide

/-- C8 witness: the characterization applied at concrete inputs. -/
theorem formatSeconds_characterization_w :
    formatSeconds ((-7 : ℤ) : ℚ) = "now" ∧ formatSeconds ((90061 : ℤ) : ℚ) =
      (if 0 < (90061 : ℤ) / 86400 then
        toString ((90061 : ℤ) / 86400) ++ "d" ++
          (if 0 < (90061 : ℤ) % 86400 / 3600 then
            " " ++ toString ((90061 : ℤ) % 86400 / 3600) ++ "h" else "")
      else if 0 < (90061 : ℤ) % 86400 / 3600 then
        toString ((90061 : ℤ) % 86400 / 3600) ++ "h" ++
          (if 0 < (90061 : ℤ) % 3600 / 60 then
            " " ++ toString ((90061 : ℤ) % 3600 / 60) ++ "m" else "")
      else if 0 < (90061 : ℤ) % 3600 / 60 then toString ((90061 : ℤ) % 3600 / 60) ++ "m"
      else "<1m") :=
  ⟨(formatSeconds_characterization.1 (-7)).1 (by norm_num),
   (formatSeconds_characterization.1 90061).2 (by norm_num)⟩

/-! ## C9: fitTextEnd -/

/-- C9 counterexample: at text "abcde" and width 4 only one character must
be cut (1 ≤ 3), yet fitTextEnd does not hard-truncate — it produces the
ellipsis form "a...", because the code branches on the width budget, not on
how many characters are cut. -/
theorem fitTextEnd_small_cut_counterexample :
    fitTextEnd "abcde" 4 = "a..." ∧ ("abcde" : String).length - 4 ≤ 3 ∧
    fitTextEnd "abcde" 4 ≠ jsTake "abcde" 4 := by
  refine ⟨by decide, by decide, by decide⟩

/-- C9 amended: fitTextEnd returns the text unchanged when it fits; when it
does not fit it truncates preserving a trailing ellipsis when the maximum
width exceeds 3, and hard-truncates to the maximum width without an
ellipsis when the maximum width is at most 3. -/
theorem fitTextEnd_by_budget (text : String) (maxLength : ℕ) :
    (text.length ≤ maxLength → fitTextEnd text maxLength = text) ∧
    (maxLength < text.length → 3 < maxLength →
      fitTextEnd text maxLength = jsTake text (maxLength - 3) ++ "...") ∧
    (maxLength < text.length → maxLength ≤ 3 →
      fitTextEnd text maxLength = jsTake text maxLength) := by
  unfold fitTextEnd
  refine ⟨fun h => by simp [h], fun h1 h2 => ?_, fun h1 h2 => ?_⟩
  · rw [if_neg (by omega), if_neg (by omega)]
  · rw [if_neg (by omega), if_pos h2]

/-- C9 amended witness: the three branches at concrete inputs. -/
theorem fitTextEnd_by_budget_w :
    fitTextEnd "abcdefgh" 8 = "abcdefgh" ∧
    fitTextEnd "abcdefgh" 5 = jsTake "abcdefgh" 2 ++ "..." ∧
    fitTextEnd "abcdefgh" 2 = jsTake "abcdefgh" 2 :=
  ⟨(fitTextEnd_by_budget "abcdefgh" 8).1 (by decide),
   (fitTextEnd_by_budget "abcdefgh" 5).2.1 (by decide) (by decide),
   (fitTextEnd_by_budget "abcdefgh" 2).2.2 (by decide) (by decide)⟩

/-! ## Concrete instances used by witnesses and examples -/

/-- A concrete standard-library environment whose JSON.parse always throws. -/
def cEnvA : JsEnv where
  decode := id
  parse := fun _ => .error (.otherErr "bad json")
  nowMs := 0
  dateMs := fun _ => none

/-- A pi auth store holding an Anthropic token. -/
def piFileA : Except JsError Json :=
  .ok (.obj [("anthropic", .obj [("access", .str "tok")])])

/-- A pi auth store holding a Codex token. -/
def piFileC : Except JsError Json :=
  .ok (.obj [("openai-codex", .obj [("access", .str "tok")])])

/-- A successful usage response with an empty JSON object body. -/
def okEmpty : FetchOutcome := .response 200 "" (.ok (.obj []))

/-! ## C5: credential resolution and token decoding never raise -/

/-- C5: credential resolution and token-payload decoding are total and
yield absence rather than faults: a failed read or parse of either store
gives null, a parsed store without the expected keys gives null, a token
with fewer than two dot-separated segments gives no account, and a middle
segment whose decoded bytes fail JSON.parse gives no account. -/
theorem credentials_never_raise (env : JsEnv) :
    (∀ (e : JsError) (provider : String), readPiAuth (.error e) provider = none) ∧
    (∀ (data : Json) (provider : String), jsField data provider = none →
      readPiAuth (.ok data) provider = none) ∧
    (∀ e : JsError, readCodexAuth env (.error e) = none) ∧
    (∀ data : Json, codexTokenOf data = none →
      readCodexAuth env (.ok data) = none) ∧
    (∀ token : String, (jsSplitDots token).length < 2 →
      extractEmailFromJwt env token = none) ∧
    (∀ (token : String) (err : JsError), ¬ (jsSplitDots token).length < 2 →
      env.parse (env.decode (b64urlPrep ((jsSplitDots token).getD 1 ""))) = .error err →
      extractEmailFromJwt env token = none) := by
  refine ⟨fun e provider => rfl, fun data provider h => ?_, fun e => rfl,
    fun data h => ?_, fun token h => ?_, fun token err h1 h2 => ?_⟩
  · cases data <;> simp_all [readPiAuth]
  · cases data <;> simp_all [readCodexAuth]
  · simp [extractEmailFromJwt, h]
  · simp only [extractEmailFromJwt]
    rw [if_neg h1, h2]

/-- C5 witness: the never-raise clauses at concrete inputs. -/
theorem credentials_never_raise_w :
    readPiAuth (.error (.otherErr "boom")) "anthropic" = none ∧
    readPiAuth (.ok (.obj [("other", .num 1)])) "anthropic" = none ∧
    readCodexAuth cEnvA (.error (.otherErr "boom")) = none ∧
    readCodexAuth cEnvA (.ok (.obj [])) = none ∧
    extractEmailFromJwt cEnvA "solo" = none ∧
    extractEmailFromJwt cEnvA "aa.bb" = none :=
  ⟨(credentials_never_raise cEnvA).1 (.otherErr "boom") "anthropic",
   (credentials_never_raise cEnvA).2.1 (.obj [("other", .num 1)]) "anthropic" rfl,
   (credentials_never_raise cEnvA).2.2.1 (.otherErr "boom"),
   (credentials_never_raise cEnvA).2.2.2.1 (.obj []) rfl,
   (credentials_never_raise cEnvA).2.2.2.2.1 "solo" (by decide),
   (credentials_never_raise cEnvA).2.2.2.2.2 "aa.bb" (.otherErr "bad json") (by decide) rfl⟩

/-! ## C1: error implies empty windows -/

/-- Every Anthropic fetch result has no error or no windows. -/
theorem fetchAnthropic_inv (env : JsEnv) (piFile : Except JsError Json)
    (profileEmail : Option String) (usage : FetchOutcome) :
    (fetchAnthropicUsage env piFile profileEmail usage).error = none ∨
    (fetchAnthropicUsage env piFile profileEmail usage).windows = [] := by
  unfold fetchAnthropicUsage
  repeat' split
  all_goals simp

/-- Every Codex fetch result has no error or no windows. -/
theorem fetchCodex_inv (env : JsEnv) (piFile codexFile : Except JsError Json)
    (usage : FetchOutcome) :
    (fetchCodexUsage env piFile codexFile usage).error = none ∨
    (fetchCodexUsage env piFile codexFile usage).windows = [] := by
  unfold fetchCodexUsage
  repeat' split
  all_goals simp

/-- C1: in every result of either provider client, a present error forces
empty windows; and the absence of an error does not force non-empty
windows — a successful parse of an empty body yields zero windows and no
error. -/
theorem provider_error_no_windows :
    (∀ (env : JsEnv) (piFile : Except JsError Json) (profileEmail : Option String)
        (usage : FetchOutcome),
      (fetchAnthropicUsage env piFile profileEmail usage).error.isSome →
      (fetchAnthropicUsage env piFile profileEmail usage).windows = []) ∧
    (∀ (env : JsEnv) (piFile codexFile : Except JsError Json) (usage : FetchOutcome),
      (fetchCodexUsage env piFile codexFile usage).error.isSome →
      (fetchCodexUsage env piFile codexFile usage).windows = []) ∧
    (fetchAnthropicUsage cEnvA piFileA none okEmpty).error = none ∧
    (fetchAnthropicUsage cEnvA piFileA none okEmpty).windows = [] := by
  refine ⟨fun env piFile pe u h => ?_, fun env piFile cf u h => ?_, rfl, rfl⟩
  · rcases fetchAnthropic_inv env piFile pe u with h1 | h2
    · simp [h1] at h
    · exact h2
  · rcases fetchCodex_inv env piFile cf u with h1 | h2
    · simp [h1] at h
    · exact h2

/-- C1 witness: a failing read yields an error result, whose windows are
empty by the theorem. -/
theorem provider_error_no_windows_w :
    (fetchAnthropicUsage cEnvA (.error (.otherErr "boom")) none okEmpty).windows = [] ∧
    (fetchCodexUsage cEnvA (.error (.otherErr "boom")) (.error (.otherErr "boom")) okEmpty).windows = [] :=
  ⟨provider_error_no_windows.1 cEnvA (.error (.otherErr "boom")) none okEmpty rfl,
   provider_error_no_windows.2.1 cEnvA (.error (.otherErr "boom")) (.error (.otherErr "boom")) okEmpty rfl⟩

/-! ## C4: cancellation surfaces exactly as "Cancelled" -/

/-- C4: with credentials present, an abort of the usage call — whether the
fetch promise itself rejects with AbortError (cancellation before or during
the call) or the body read does — produces exactly the error "Cancelled"
with empty windows, for both providers; in particular cancellation is never
folded into the HTTP-error or transport-error shapes, whose messages are
produced only in the non-abort branches. -/
theorem fetch_cancelled_exact :
    (∀ (env : JsEnv) (piFile : Except JsError Json) (profileEmail : Option String) (a : Json),
      readPiAuth piFile "anthropic" = some a → jsTruthy a = true →
      (fetchAnthropicUsage env piFile profileEmail (.threw .abortError)).error = some "Cancelled" ∧
      (fetchAnthropicUsage env piFile profileEmail (.threw .abortError)).windows = []) ∧
    (∀ (env : JsEnv) (piFile : Except JsError Json) (profileEmail : Option String) (a : Json)
        (status : ℕ) (text : String),
      readPiAuth piFile "anthropic" = some a → jsTruthy a = true → resOk status = true →
      (fetchAnthropicUsage env piFile profileEmail
        (.response status text (.error .abortError))).error = some "Cancelled" ∧
      (fetchAnthropicUsage env piFile profileEmail
        (.response status text (.error .abortError))).windows = []) ∧
    (∀ (env : JsEnv) (piFile codexFile : Except JsError Json) (t : Json),
      codexAccessToken env piFile codexFile = some t → jsTruthy t = true →
      (fetchCodexUsage env piFile codexFile (.threw .abortError)).error = some "Cancelled" ∧
      (fetchCodexUsage env piFile codexFile (.threw .abortError)).windows = []) ∧
    (∀ (env : JsEnv) (piFile codexFile : Except JsError Json) (t : Json)
        (status : ℕ) (text : String),
      codexAccessToken env piFile codexFile = some t → jsTruthy t = true → resOk status = true →
      (fetchCodexUsage env piFile codexFile
        (.response status text (.error .abortError))).error = some "Cancelled" ∧
      (fetchCodexUsage env piFile codexFile
        (.response status text (.error .abortError))).windows = []) := by
  refine ⟨fun env piFile pe a h1 h2 => ?_, fun env piFile pe a st tx h1 h2 h3 => ?_,
    fun env piFile cf t h1 h2 => ?_, fun env piFile cf t st tx h1 h2 h3 => ?_⟩
  · constructor <;> simp [fetchAnthropicUsage, h1, h2]
  · constructor <;> simp [fetchAnthropicUsage, h1, h2, h3]
  · constructor <;> simp [fetchCodexUsage, h1, h2]
  · constructor <;> simp [fetchCodexUsage, h1, h2, h3]

/-- C4 witness: cancellation during both phases at concrete credentials. -/
theorem fetch_cancelled_exact_w :
    (fetchAnthropicUsage cEnvA piFileA none (.threw .abortError)).error = some "Cancelled" ∧
    (fetchAnthropicUsage cEnvA piFileA none
      (.response 200 "" (.error .abortError))).windows = [] ∧
    (fetchCodexUsage cEnvA piFileC (.error (.otherErr "x"))
      (.threw .abortError)).error = some "Cancelled" ∧
    (fetchCodexUsage cEnvA piFileC (.error (.otherErr "x"))
      (.response 200 "" (.error .abortError))).error = some "Cancelled" :=
  ⟨(fetch_cancelled_exact.1 cEnvA piFileA none (.obj [("access", .str "tok")]) rfl rfl).1,
   (fetch_cancelled_exact.2.1 cEnvA piFileA none (.obj [("access", .str "tok")]) 200 "" rfl rfl rfl).2,
   (fetch_cancelled_exact.2.2.1 cEnvA piFileC (.error (.otherErr "x")) (.str "tok") rfl rfl).1,
   (fetch_cancelled_exact.2.2.2 cEnvA piFileC (.error (.otherErr "x")) (.str "tok") 200 "" rfl rfl rfl).1⟩

/-! ## C2 and C10: the usage row gauge -/

theorem jsRound_eq (q : ℚ) : jsRound q = ⌊q + 1/2⌋ := by
  rw [jsRound, ratFloor_eq]

theorem jsRound_nonneg_iff (q : ℚ) : 0 ≤ jsRound q ↔ -(1/2 : ℚ) ≤ q := by
  rw [jsRound_eq]
  rw [show ((0 : ℤ) ≤ ⌊q + 1/2⌋ ↔ ((0 : ℤ) : ℚ) ≤ q + 1/2) from Int.le_floor]
  constructor <;> intro h <;> push_cast at h ⊢ <;> linarith

theorem jsRound_le_iff (q : ℚ) (z : ℤ) : jsRound q ≤ z ↔ q + 1/2 < z + 1 := by
  rw [jsRound_eq]
  constructor
  · intro h
    have h2 : ⌊q + 1/2⌋ < z + 1 := by omega
    have := Int.floor_lt.mp h2
    push_cast at this
    linarith
  · intro h
    have : ⌊q + 1/2⌋ < z + 1 := Int.floor_lt.mpr (by push_cast; linarith)
    omega

theorem jsRound_ge_iff (q : ℚ) (z : ℤ) : z ≤ jsRound q ↔ (z : ℚ) ≤ q + 1/2 := by
  rw [jsRound_eq]
  exact Int.le_floor

/-- renderUsageRow succeeds exactly when the gauge fill count is between 0
and 8: outside that range one of the two string repetitions throws. -/
theorem renderUsageRow_some_iff (win : UsageWindow) (lw : ℕ) (mw : ℤ) (θ : Theme) :
    (renderUsageRow win lw mw θ).isSome ↔
    (0 ≤ jsRound ((100 - win.percentUsed) / 100 * 8) ∧
     jsRound ((100 - win.percentUsed) / 100 * 8) ≤ 8) := by
  unfold renderUsageRow
  simp only [jsRepeat]
  split_ifs with h1 h2 h2 <;> simp <;> omega

/-- C10: renderUsageRow is total only when the gauge fill count
round((100 − percentUsed)/100 × 8) lies in [0,8], which confines percentUsed
to [−6.25, 106.25]; for percentUsed above 106.25 the fill count is negative,
for percentUsed below −6.25 the unfilled count is negative, and in both
cases the string repetition fails and no row is produced. -/
theorem renderUsageRow_domain (win : UsageWindow) (lw : ℕ) (mw : ℤ) (θ : Theme) :
    ((renderUsageRow win lw mw θ).isSome →
      (0 ≤ jsRound ((100 - win.percentUsed) / 100 * 8) ∧
       jsRound ((100 - win.percentUsed) / 100 * 8) ≤ 8 ∧
       -(25/4 : ℚ) ≤ win.percentUsed ∧ win.percentUsed ≤ 425/4)) ∧
    (425/4 < win.percentUsed →
      jsRound ((100 - win.percentUsed) / 100 * 8) < 0 ∧
      renderUsageRow win lw mw θ = none) ∧
    (win.percentUsed < -(25/4 : ℚ) →
      8 - jsRound ((100 - win.percentUsed) / 100 * 8) < 0 ∧
      renderUsageRow win lw mw θ = none) := by
  refine ⟨fun h => ?_, fun h => ?_, fun h => ?_⟩
  · obtain ⟨hl, hr⟩ := (renderUsageRow_some_iff win lw mw θ).mp h
    refine ⟨hl, hr, ?_, ?_⟩
    · have h9 := (jsRound_le_iff ((100 - win.percentUsed) / 100 * 8) 8).mp hr
      push_cast at h9
      linarith
    · have hd := (jsRound_nonneg_iff ((100 - win.percentUsed) / 100 * 8)).mp hl
      linarith
  · have hneg : jsRound ((100 - win.percentUsed) / 100 * 8) < 0 := by
      by_contra hc
      push_neg at hc
      have := (jsRound_nonneg_iff ((100 - win.percentUsed) / 100 * 8)).mp hc
      linarith
    refine ⟨hneg, ?_⟩
    have : ¬ (renderUsageRow win lw mw θ).isSome := by
      rw [renderUsageRow_some_iff]
      omega
    simpa [Option.not_isSome_iff_eq_none] using this
  · have hbig : (9 : ℤ) ≤ jsRound ((100 - win.percentUsed) / 100 * 8) := by
      rw [jsRound_ge_iff]
      push_cast
      linarith
    refine ⟨by omega, ?_⟩
    have : ¬ (renderUsageRow win lw mw θ).isSome := by
      rw [renderUsageRow_some_iff]
      omega
    simpa [Option.not_isSome_iff_eq_none] using this

/-- A concrete theme whose styling prepends one escape segment. -/
def concreteTheme : Theme where
  fg := fun r t => Seg.esc r :: t
  bold := fun t => Seg.esc "bold" :: t
  fg_width := by intro r t; simp [visibleWidth, segWidth]
  bold_width := by intro t; simp [visibleWidth, segWidth]

/-- C10 witness: the overflow cases at percentUsed 200 and −50. -/
theorem renderUsageRow_domain_w :
    (jsRound ((100 - (200 : ℚ)) / 100 * 8) < 0 ∧
     renderUsageRow ⟨"x", 200, none⟩ 0 0 concreteTheme = none) ∧
    (8 - jsRound ((100 - (-50 : ℚ)) / 100 * 8) < 0 ∧
     renderUsageRow ⟨"x", -50, none⟩ 0 0 concreteTheme = none) :=
  ⟨(renderUsageRow_domain ⟨"x", 200, none⟩ 0 0 concreteTheme).2.1 (by norm_num),
   (renderUsageRow_domain ⟨"x", -50, none⟩ 0 0 concreteTheme).2.2 (by norm_num)⟩

/-- C2: for percentUsed in [0,100], renderUsageRow computes
remaining = 100 − percentUsed, a fill count round(remaining/100 × 8) lying
in [0,8] with 8 minus it unfilled glyphs, and one color — alert ("error")
exactly when remaining ≤ 20, caution ("warning") exactly when
20 < remaining ≤ 50, normal ("success") otherwise — applied both to the
gauge fill and to the percentage text. -/
theorem renderUsageRow_gauge_colors (win : UsageWindow) (lw : ℕ) (mw : ℤ) (θ : Theme)
    (h0 : 0 ≤ win.percentUsed) (h100 : win.percentUsed ≤ 100) :
    0 ≤ jsRound ((100 - win.percentUsed) / 100 * 8) ∧
    jsRound ((100 - win.percentUsed) / 100 * 8) ≤ 8 ∧
    ∃ c : String,
      renderUsageRow win lw mw θ = some (
        θ.fg "text" (vstr (padEndStr win.label lw)) ++ vstr " " ++
        (θ.fg "dim" (vstr "[") ++
         θ.fg c (vstr (repStr "▮" (jsRound ((100 - win.percentUsed) / 100 * 8)).toNat)) ++
         θ.fg "dim" (vstr (repStr "·" (8 - jsRound ((100 - win.percentUsed) / 100 * 8)).toNat)) ++
         θ.fg "dim" (vstr "]")) ++ vstr " " ++
        θ.fg c (vstr (padStartStr (qToString (100 - win.percentUsed) ++ "%") 4)) ++
        vstr " left" ++ resetSegOf θ win.resetIn) ∧
      (c = "error" ↔ 100 - win.percentUsed ≤ 20) ∧
      (c = "warning" ↔ (20 < 100 - win.percentUsed ∧ 100 - win.percentUsed ≤ 50)) ∧
      (c = "success" ↔ 50 < 100 - win.percentUsed) := by
  have hl : 0 ≤ jsRound ((100 - win.percentUsed) / 100 * 8) := by
    rw [jsRound_nonneg_iff]
    linarith
  have hr : jsRound ((100 - win.percentUsed) / 100 * 8) ≤ 8 := by
    rw [jsRound_le_iff]
    push_cast
    linarith
  refine ⟨hl, hr, ?_⟩
  refine ⟨if 100 - win.percentUsed ≤ 20 then "error"
          else if 100 - win.percentUsed ≤ 50 then "warning" else "success", ?_, ?_, ?_, ?_⟩
  · unfold renderUsageRow
    simp only [jsRepeat, if_neg (not_lt.mpr hl), if_neg (not_lt.mpr (by omega : (0 : ℤ) ≤ 8 - jsRound ((100 - win.percentUsed) / 100 * 8)))]
  · split_ifs with h1 h2
    · exact iff_of_true rfl h1
    · exact iff_of_false (by decide) h1
    · exact iff_of_false (by decide) h1
  · split_ifs with h1 h2
    · exact iff_of_false (by decide) (fun hc => (not_le.mpr hc.1) h1)
    · exact iff_of_true rfl ⟨not_le.mp h1, h2⟩
    · exact iff_of_false (by decide) (fun hc => h2 hc.2)
  · split_ifs with h1 h2
    · exact iff_of_false (by decide) (not_lt.mpr (by linarith))
    · exact iff_of_false (by decide) (not_lt.mpr h2)
    · exact iff_of_true rfl (not_le.mp h2)

/-- C2 witness: the characterization applied at a concrete window. -/
theorem renderUsageRow_gauge_colors_w :
    0 ≤ jsRound ((100 - (34 : ℚ)) / 100 * 8) ∧
    jsRound ((100 - (34 : ℚ)) / 100 * 8) ≤ 8 :=
  ⟨(renderUsageRow_gauge_colors ⟨"Weekly", 34, none⟩ 6 0 concreteTheme
      (by norm_num) (by norm_num)).1,
   (renderUsageRow_gauge_colors ⟨"Weekly", 34, none⟩ 6 0 concreteTheme
      (by norm_num) (by norm_num)).2.1⟩

/-! ## C7: Codex additional rate limits -/

/-- The all-zero additional rate limit entry of the spec example. -/
def zeroEntry : Json :=
  .obj [("limit_name", .str "GPT-5-Codex-mini"),
        ("rate_limit", .obj [("primary_window", .obj [("used_percent", .num 0)]),
                             ("secondary_window", .obj [("used_percent", .num 0)])])]

/-- The nonzero-secondary additional rate limit entry of the spec example. -/
def entry12 : Json :=
  .obj [("limit_name", .str "GPT-5-Codex-mini"),
        ("rate_limit", .obj [("primary_window", .obj [("used_percent", .num 0)]),
                             ("secondary_window", .obj [("used_percent", .num 12)])])]

/-- C7: an additional_rate_limits entry with a missing name or rate-limit
payload is skipped; an entry whose primary and secondary windows both
report zero usage is skipped; a surfaced entry is labeled with the raw
limit name after stripping a leading "GPT-" and replacing the "-Codex-"
infix by a space, carries the larger of the two window percentages, and
takes its reset from the secondary window; the all-zero "GPT-5-Codex-mini"
example yields no window and the example with secondary used_percent 12
yields the window "5 mini" at 12 percent. -/
theorem codexExtraWindow_spec :
    (∀ extra : Json, extra ≠ .null →
      (jsField extra "limit_name" = none ∨ jsField extra "rate_limit" = none) →
      codexExtraWindow extra = .ok none) ∧
    (∀ extra : Json, extra ≠ .null →
      usedPct ((jsField extra "rate_limit").bind (fun r => jsField r "primary_window")) = 0 →
      usedPct ((jsField extra "rate_limit").bind (fun r => jsField r "secondary_window")) = 0 →
      codexExtraWindow extra = .ok none) ∧
    (∀ (extra : Json) (w : UsageWindow) (name : String),
      codexExtraWindow extra = .ok (some w) →
      jsField extra "limit_name" = some (.str name) →
      w.label = swapCodexMid (dropGptLead name) ∧
      w.percentUsed =
        max (usedPct ((jsField extra "rate_limit").bind (fun r => jsField r "primary_window")))
            (usedPct ((jsField extra "rate_limit").bind (fun r => jsField r "secondary_window"))) ∧
      w.resetIn = resetOfWin ((jsField extra "rate_limit").bind (fun r => jsField r "secondary_window"))) ∧
    codexExtraWindow zeroEntry = .ok none ∧
    codexExtraWindow entry12 = .ok (some ⟨"5 mini", 12, none⟩) := by
  have hcore : ∀ extra : Json, extra ≠ .null → codexExtraWindow extra = codexExtraCore extra := by
    intro extra hne
    cases extra <;> first | (exact absurd rfl hne) | rfl
  refine ⟨fun extra hne hmiss => ?_, fun extra hne hp hs => ?_,
    fun extra w name hw hname => ?_, ?_, ?_⟩
  · rw [hcore extra hne]
    rcases hmiss with h | h
    · simp [codexExtraCore, h, truthyOpt]
    · by_cases h1 : truthyOpt (jsField extra "limit_name")
      · simp [codexExtraCore, h1, h, truthyOpt]
      · simp [codexExtraCore, h1]
  · rw [hcore extra hne]
    by_cases h1 : truthyOpt (jsField extra "limit_name")
    · by_cases h2 : truthyOpt (jsField extra "rate_limit")
      · simp [codexExtraCore, h1, h2, hp, hs]
      · simp [codexExtraCore, h1, h2]
    · simp [codexExtraCore, h1]
  · have hne : extra ≠ .null := by
      intro he
      rw [he] at hw
      exact absurd hw (by simp [codexExtraWindow])
    rw [hcore extra hne] at hw
    simp only [codexExtraCore] at hw
    split_ifs at hw with h1 h2 h3 <;>
      first
        | exact absurd hw (by simp)
        | (rw [hname] at hw
           simp only [Except.ok.injEq, Option.some.injEq] at hw
           subst hw
           exact ⟨rfl, rfl, rfl⟩)
  · rfl
  · rfl

/-- C7 witness: the skip and surface clauses at concrete entries. -/
theorem codexExtraWindow_spec_w :
    codexExtraWindow (.obj [("rate_limit", .str "x")]) = .ok none ∧
    codexExtraWindow zeroEntry = .ok none ∧
    ((⟨"5 mini", 12, none⟩ : UsageWindow).label =
      swapCodexMid (dropGptLead "GPT-5-Codex-mini") ∧
     (⟨"5 mini", 12, none⟩ : UsageWindow).percentUsed =
      max (usedPct ((jsField entry12 "rate_limit").bind (fun r => jsField r "primary_window")))
          (usedPct ((jsField entry12 "rate_limit").bind (fun r => jsField r "secondary_window"))) ∧
     (⟨"5 mini", 12, none⟩ : UsageWindow).resetIn =
      resetOfWin ((jsField entry12 "rate_limit").bind (fun r => jsField r "secondary_window"))) :=
  ⟨codexExtraWindow_spec.1 (.obj [("rate_limit", .str "x")]) (by simp) (Or.inl rfl),
   codexExtraWindow_spec.2.1 zeroEntry (by simp [zeroEntry]) rfl rfl,
   codexExtraWindow_spec.2.2.1 entry12 ⟨"5 mini", 12, none⟩ "GPT-5-Codex-mini" rfl rfl⟩

/-! ## C6: Anthropic window mapping -/

/-- The field key has a present, non-null utilization. -/
def utilPresent (data : Json) (key : String) : Prop :=
  ∃ fh u, jsField data key = some fh ∧ jsField fh "utilization" = some u ∧ u ≠ .null

/-- An Anthropic mapping entry carries its fixed label. -/
theorem anthropicWindow_label (env : JsEnv) (data : Json) (k l : String) (w : UsageWindow)
    (h : anthropicWindow env data k l = some w) : w.label = l := by
  unfold anthropicWindow at h
  split at h
  · split at h
    · exact absurd h (by simp)
    · simp only [Option.some.injEq] at h
      subst h
      rfl
    · exact absurd h (by simp)
  · exact absurd h (by simp)

/-- An Anthropic mapping entry exists exactly when the utilization field is
present and non-null. -/
theorem anthropicWindow_isSome_iff (env : JsEnv) (data : Json) (k l : String) :
    (anthropicWindow env data k l).isSome ↔ utilPresent data k := by
  unfold anthropicWindow utilPresent
  rcases hf : jsField data k with _ | fh
  · simp [hf]
  · rcases hu : jsField fh "utilization" with _ | u
    · simp [hf, hu]
    · cases u <;> simp [hf, hu]

/-- Membership in the Anthropic window list is production by one of the
four mapping entries. -/
theorem mem_anthropicWindows (env : JsEnv) (data : Json) (w : UsageWindow) :
    w ∈ anthropicWindows env data ↔
    (anthropicWindow env data "five_hour" "5h session" = some w ∨
     anthropicWindow env data "seven_day" "Weekly" = some w ∨
     anthropicWindow env data "seven_day_opus" "Weekly (Opus)" = some w ∨
     anthropicWindow env data "seven_day_sonnet" "Weekly (Sonnet)" = some w) := by
  simp [anthropicWindows, List.mem_append]

/-- One direction of the per-label characterization, shared by the four
fields: the window of one mapping entry is in the list. -/
theorem anthropic_label_exists (env : JsEnv) (data : Json) (k l : String)
    (hk : ∀ w : UsageWindow, anthropicWindow env data k l = some w →
      w ∈ anthropicWindows env data)
    (hp : utilPresent data k) :
    ∃ w ∈ anthropicWindows env data, w.label = l := by
  have hs := (anthropicWindow_isSome_iff env data k l).mpr hp
  obtain ⟨w0, hw0⟩ := Option.isSome_iff_exists.mp hs
  exact ⟨w0, hk w0 hw0, anthropicWindow_label env data k l w0 hw0⟩

/-- The label list of one optional mapping entry is a sublist of its fixed
label. -/
theorem toList_label_sub (env : JsEnv) (data : Json) (k l : String) :
    List.Sublist ((anthropicWindow env data k l).toList.map (fun w => w.label)) [l] := by
  rcases h : anthropicWindow env data k l with _ | w
  · simp
  · simp only [Option.toList_some, List.map_cons, List.map_nil,
      anthropicWindow_label env data k l w h]
    exact List.Sublist.refl _

/-- Windows and error of a successful Anthropic usage response. -/
theorem fetchAnthropic_success (env : JsEnv) (piFile : Except JsError Json)
    (pe : Option String) (a : Json) (status : ℕ) (text : String) (data : Json)
    (h1 : readPiAuth piFile "anthropic" = some a) (h2 : jsTruthy a = true)
    (h3 : resOk status = true) (h4 : data ≠ .null) :
    (fetchAnthropicUsage env piFile pe (.response status text (.ok data))).windows =
      anthropicWindows env data ∧
    (fetchAnthropicUsage env piFile pe (.response status text (.ok data))).error = none := by
  cases data <;> try (exact absurd rfl h4)
  all_goals constructor <;> simp [fetchAnthropicUsage, h1, h2, h3]

/-- The timestamp environment and response of the C6 example: a five-hour
session window at 34 percent resetting five hours out, and a weekly window
at 81 percent with no reset timestamp. -/
def iso6 : String := "2099-01-01T05:00:00Z"

/-- Environment whose clock is at 0 ms and which parses iso6 as the instant
18000000 ms (five hours later). -/
def cEnvB : JsEnv where
  decode := id
  parse := fun _ => .error (.otherErr "bad json")
  nowMs := 0
  dateMs := fun s => if s = iso6 then some 18000000 else none

/-- The Anthropic response body of the C6 example. -/
def data6 : Json :=
  .obj [("five_hour", .obj [("utilization", .num 34), ("resets_at", .str iso6)]),
        ("seven_day", .obj [("utilization", .num 81)])]

theorem formatResetTimestamp_iso6 : formatResetTimestamp cEnvB (.str iso6) = "5h" := by
  have hfloor : ratFloor ((18000000 : ℚ) / 1000) = 18000 := by
    rw [show ((18000000 : ℚ)) / 1000 = ((18000 : ℤ) : ℚ) by norm_num, ratFloor_eq,
      Int.floor_intCast]
  have hmax : ((0 : ℚ) ⊔ ((18000 : ℤ) : ℚ)) = ((18000 : ℤ) : ℚ) :=
    sup_eq_right.mpr (by norm_num)
  have hfmt : formatSeconds (((18000 : ℤ) : ℚ)) = "5h" := by
    have h := (formatSeconds_int 18000).2 (by norm_num)
    rw [h]; decide
  simp [formatResetTimestamp, cEnvB]
  rw [hfloor, hmax]
  exact hfmt

/-- C6: Anthropic windows are produced only for the four utilization fields
that are present and non-null, appended in the fixed order five_hour,
seven_day, seven_day_opus, seven_day_sonnet with their fixed labels and
absent fields omitted; the example response with five_hour at 34 percent
resetting in five hours and seven_day at 81 percent yields exactly the two
windows "5h session" at 34 with the non-empty reset "5h" and "Weekly" at 81
with no reset. -/
theorem anthropic_mapping :
    (∀ (env : JsEnv) (data : Json),
      List.Sublist ((anthropicWindows env data).map (fun w => w.label))
        ["5h session", "Weekly", "Weekly (Opus)", "Weekly (Sonnet)"] ∧
      ((∃ w ∈ anthropicWindows env data, w.label = "5h session") ↔ utilPresent data "five_hour") ∧
      ((∃ w ∈ anthropicWindows env data, w.label = "Weekly") ↔ utilPresent data "seven_day") ∧
      ((∃ w ∈ anthropicWindows env data, w.label = "Weekly (Opus)") ↔ utilPresent data "seven_day_opus") ∧
      ((∃ w ∈ anthropicWindows env data, w.label = "Weekly (Sonnet)") ↔ utilPresent data "seven_day_sonnet")) ∧
    (fetchAnthropicUsage cEnvB piFileA none (.response 200 "" (.ok data6))).windows =
      [⟨"5h session", 34, some "5h"⟩, ⟨"Weekly", 81, none⟩] ∧
    (fetchAnthropicUsage cEnvB piFileA none (.response 200 "" (.ok data6))).error = none := by
  have hgen : ∀ (env : JsEnv) (data : Json),
      List.Sublist ((anthropicWindows env data).map (fun w => w.label))
        ["5h session", "Weekly", "Weekly (Opus)", "Weekly (Sonnet)"] ∧
      ((∃ w ∈ anthropicWindows env data, w.label = "5h session") ↔ utilPresent data "five_hour") ∧
      ((∃ w ∈ anthropicWindows env data, w.label = "Weekly") ↔ utilPresent data "seven_day") ∧
      ((∃ w ∈ anthropicWindows env data, w.label = "Weekly (Opus)") ↔ utilPresent data "seven_day_opus") ∧
      ((∃ w ∈ anthropicWindows env data, w.label = "Weekly (Sonnet)") ↔ utilPresent data "seven_day_sonnet") := by
    intro env data
    refine ⟨?_, ?_, ?_, ?_, ?_⟩
    · simp only [anthropicWindows, List.map_append]
      exact (((toList_label_sub env data "five_hour" "5h session").append
        (toList_label_sub env data "seven_day" "Weekly")).append
        (toList_label_sub env data "seven_day_opus" "Weekly (Opus)")).append
        (toList_label_sub env data "seven_day_sonnet" "Weekly (Sonnet)")
    · constructor
      · rintro ⟨w, hw, hl⟩
        rcases (mem_anthropicWindows env data w).mp hw with h | h | h | h
        · exact (anthropicWindow_isSome_iff env data "five_hour" "5h session").mp (by rw [h]; rfl)
        · exact absurd ((anthropicWindow_label env data _ _ w h).symm.trans hl) (by decide)
        · exact absurd ((anthropicWindow_label env data _ _ w h).symm.trans hl) (by decide)
        · exact absurd ((anthropicWindow_label env data _ _ w h).symm.trans hl) (by decide)
      · exact anthropic_label_exists env data "five_hour" "5h session"
          (fun w0 hw0 => (mem_anthropicWindows env data w0).mpr (Or.inl hw0))
    · constructor
      · rintro ⟨w, hw, hl⟩
        rcases (mem_anthropicWindows env data w).mp hw with h | h | h | h
        · exact absurd ((anthropicWindow_label env data _ _ w h).symm.trans hl) (by decide)
        · exact (anthropicWindow_isSome_iff env data "seven_day" "Weekly").mp (by rw [h]; rfl)
        · exact absurd ((anthropicWindow_label env data _ _ w h).symm.trans hl) (by decide)
        · exact absurd ((anthropicWindow_label env data _ _ w h).symm.trans hl) (by decide)
      · exact anthropic_label_exists env data "seven_day" "Weekly"
          (fun w0 hw0 => (mem_anthropicWindows env data w0).mpr (Or.inr (Or.inl hw0)))
    · constructor
      · rintro ⟨w, hw, hl⟩
        rcases (mem_anthropicWindows env data w).mp hw with h | h | h | h
        · exact absurd ((anthropicWindow_label env data _ _ w h).symm.trans hl) (by decide)
        · exact absurd ((anthropicWindow_label env data _ _ w h).symm.trans hl) (by decide)
        · exact (anthropicWindow_isSome_iff env data "seven_day_opus" "Weekly (Opus)").mp
            (by rw [h]; rfl)
        · exact absurd ((anthropicWindow_label env data _ _ w h).symm.trans hl) (by decide)
      · exact anthropic_label_exists env data "seven_day_opus" "Weekly (Opus)"
          (fun w0 hw0 => (mem_anthropicWindows env data w0).mpr (Or.inr (Or.inr (Or.inl hw0))))
    · constructor
      · rintro ⟨w, hw, hl⟩
        rcases (mem_anthropicWindows env data w).mp hw with h | h | h | h
        · exact absurd ((anthropicWindow_label env data _ _ w h).symm.trans hl) (by decide)
        · exact absurd ((anthropicWindow_label env data _ _ w h).symm.trans hl) (by decide)
        · exact absurd ((anthropicWindow_label env data _ _ w h).symm.trans hl) (by decide)
        · exact (anthropicWindow_isSome_iff env data "seven_day_sonnet" "Weekly (Sonnet)").mp
            (by rw [h]; rfl)
      · exact anthropic_label_exists env data "seven_day_sonnet" "Weekly (Sonnet)"
          (fun w0 hw0 => (mem_anthropicWindows env data w0).mpr (Or.inr (Or.inr (Or.inr hw0))))
  have htr : jsTruthy (.str iso6) = true := by simp [jsTruthy, iso6]
  have h5 : anthropicWindow cEnvB data6 "five_hour" "5h session" =
      some ⟨"5h session", 34, some "5h"⟩ := by
    simp [anthropicWindow, data6, jsField, lookupLast, jsToNum, htr, formatResetTimestamp_iso6]
  have h7 : anthropicWindow cEnvB data6 "seven_day" "Weekly" = some ⟨"Weekly", 81, none⟩ := by
    simp [anthropicWindow, data6, jsField, lookupLast, jsToNum]
  have h8 : anthropicWindow cEnvB data6 "seven_day_opus" "Weekly (Opus)" = none := by
    simp [anthropicWindow, data6, jsField, lookupLast]
  have h9 : anthropicWindow cEnvB data6 "seven_day_sonnet" "Weekly (Sonnet)" = none := by
    simp [anthropicWindow, data6, jsField, lookupLast]
  have hwin : anthropicWindows cEnvB data6 =
      [⟨"5h session", 34, some "5h"⟩, ⟨"Weekly", 81, none⟩] := by
    simp [anthropicWindows, h5, h7, h8, h9]
  have hsucc := fetchAnthropic_success cEnvB piFileA none (.obj [("access", .str "tok")])
    200 "" data6 rfl rfl rfl (by simp [data6])
  exact ⟨hgen, hsucc.1.trans hwin, hsucc.2⟩

/-! ## C3: panel line widths -/

theorem visibleWidth_append (a b : SText) :
    visibleWidth (a ++ b) = visibleWidth a + visibleWidth b := by
  simp [visibleWidth]

theorem visibleWidth_vstr (s : String) : visibleWidth (vstr s) = s.length := by
  simp [visibleWidth, vstr, segWidth]

theorem visibleWidth_fg (θ : Theme) (r : String) (t : SText) :
    visibleWidth (θ.fg r t) = visibleWidth t :=
  θ.fg_width r t

theorem visibleWidth_bold (θ : Theme) (t : SText) :
    visibleWidth (θ.bold t) = visibleWidth t :=
  θ.bold_width t

theorem visibleWidth_hyperlink (url : String) (t : SText) :
    visibleWidth (hyperlink url t) = visibleWidth t := by
  simp [hyperlink, visibleWidth, segWidth]

theorem visibleWidth_takeVis_le (t : SText) (n : ℕ) : visibleWidth (takeVis t n) ≤ n := by
  induction t generalizing n with
  | nil => simp [takeVis, visibleWidth]
  | cons seg rest ih =>
    cases seg with
    | esc s => simpa [takeVis, visibleWidth, segWidth] using ih n
    | vis s =>
      by_cases h : s.length ≤ n
      · have := ih (n - s.length)
        simp only [takeVis, if_pos h]
        simp only [visibleWidth, List.map_cons, List.sum_cons, segWidth] at this ⊢
        omega
      · simp only [takeVis, if_neg h]
        simp [visibleWidth, segWidth, jsTake_length]

theorem visibleWidth_truncateToWidth (t : SText) (n : ℕ) :
    visibleWidth (truncateToWidth t n) = n := by
  unfold truncateToWidth
  rw [visibleWidth_append, visibleWidth_vstr, spaces_length]
  have := visibleWidth_takeVis_le t n
  omega

theorem visibleWidth_panelRow (θ : Theme) (ca : ℕ) (c : SText) :
    visibleWidth (panelRow θ ca c) = ca + 6 := by
  unfold panelRow
  simp only [visibleWidth_append, visibleWidth_fg, visibleWidth_vstr,
    visibleWidth_truncateToWidth, spaces_length]
  have h1 : ("│" : String).length = 1 := rfl
  have hcp : contentPadding = 2 := rfl
  omega

theorem visibleWidth_emptyRow (θ : Theme) (innerW : ℕ) :
    visibleWidth (emptyRow θ innerW) = innerW + 2 := by
  unfold emptyRow
  simp only [visibleWidth_append, visibleWidth_fg, visibleWidth_vstr, spaces_length]
  have h1 : ("│" : String).length = 1 := rfl
  omega

theorem visibleWidth_rowExact (θ : Theme) (ca : ℕ) (content : SText) (visibleLen : ℕ) :
    visibleWidth (rowExact θ ca content visibleLen) =
      visibleWidth content + (ca - visibleLen) + 6 := by
  unfold rowExact
  simp only [visibleWidth_append, visibleWidth_fg, visibleWidth_vstr, spaces_length]
  have h1 : ("│" : String).length = 1 := rfl
  have hcp : contentPadding = 2 := rfl
  omega

/-- Width of the optional clickable footer label. -/
theorem visibleWidth_optLink (url lab : String) :
    visibleWidth (if lab = "" then ([] : SText) else hyperlink url (vstr lab)) = lab.length := by
  split_ifs with he
  · rw [he]; rfl
  · rw [visibleWidth_hyperlink, visibleWidth_vstr]

theorem visibleWidth_footerRow (θ : Theme) (ca : ℕ) (hca : 14 ≤ ca) :
    visibleWidth (footerRow θ ca) = ca + 6 := by
  simp only [footerRow]
  rw [visibleWidth_rowExact]
  simp only [visibleWidth_append, visibleWidth_fg, visibleWidth_vstr, visibleWidth_optLink,
    spaces_length, fitTextEnd_length]
  have h11 : ("[star/fork]" : String).length = 11 := rfl
  have h14 : ("esc/q to close" : String).length = 14 := rfl
  rw [h11, h14]
  omega

theorem windowRows_width (θ : Theme) (ca innerW slw : ℕ) (h : ca + 6 = innerW + 2) :
    ∀ (ws : List UsageWindow) (L : List SText), windowRows θ ca innerW slw ws = some L →
      ∀ l ∈ L, visibleWidth l = innerW + 2 := by
  intro ws
  induction ws with
  | nil =>
    intro L hL l hl
    have hL2 : L = [] := (Option.some.inj hL).symm
    subst hL2
    simp at hl
  | cons w ws ih =>
    intro L hL l hl
    unfold windowRows at hL
    split at hL
    · rename_i t rest heq1 heq2
      have hL2 : L = panelRow θ ca t :: rest := (Option.some.inj hL).symm
      subst hL2
      rcases List.mem_cons.mp hl with h1 | h1
      · subst h1
        rw [visibleWidth_panelRow]
        omega
      · exact ih rest heq2 l h1
    · exact absurd hL (by simp)

theorem sectionRest_width (θ : Theme) (ca innerW slw : ℕ) (r : ProviderUsage)
    (h : ca + 6 = innerW + 2) :
    ∀ rest : List SText, sectionRest θ ca innerW slw r = some rest →
      ∀ l ∈ rest, visibleWidth l = innerW + 2 := by
  intro rest hb l hl
  unfold sectionRest at hb
  split_ifs at hb with he hz
  · have hb2 : rest = [panelRow θ ca (θ.fg "error" (vstr ("⚠ " ++ r.error.getD "")))] :=
      (Option.some.inj hb).symm
    subst hb2
    rcases List.mem_singleton.mp hl with rfl
    rw [visibleWidth_panelRow]
    omega
  · have hb2 : rest = [panelRow θ ca (θ.fg "muted" (vstr "No usage data available"))] :=
      (Option.some.inj hb).symm
    subst hb2
    rcases List.mem_singleton.mp hl with rfl
    rw [visibleWidth_panelRow]
    omega
  · exact windowRows_width θ ca innerW slw h r.windows rest hb l hl

theorem sectionFor_width (θ : Theme) (innerW ca slw : ℕ) (r : ProviderUsage)
    (h : ca + 6 = innerW + 2) :
    ∀ L : List SText, sectionFor θ innerW ca slw r = some L →
      ∀ l ∈ L, visibleWidth l = innerW + 2 := by
  intro L hL l hl
  simp only [sectionFor] at hL
  split at hL
  · rename_i rest heq
    have hL2 := (Option.some.inj hL).symm
    subst hL2
    rcases List.mem_cons.mp hl with h1 | h1
    · subst h1
      rw [visibleWidth_panelRow]
      omega
    rcases List.mem_cons.mp h1 with h2 | h2
    · subst h2
      exact visibleWidth_emptyRow θ innerW
    exact sectionRest_width θ ca innerW slw r h rest heq l h2
  · exact absurd hL (by simp)

theorem sectionsFor_width (θ : Theme) (innerW ca slw : ℕ) (h : ca + 6 = innerW + 2) :
    ∀ (rs : List ProviderUsage) (L : List SText), sectionsFor θ innerW ca slw rs = some L →
      ∀ l ∈ L, visibleWidth l = innerW + 2 := by
  intro rs
  induction rs with
  | nil =>
    intro L hL l hl
    have hL2 : L = [] := (Option.some.inj hL).symm
    subst hL2
    simp at hl
  | cons r rest ih =>
    cases rest with
    | nil =>
      intro L hL l hl
      exact sectionFor_width θ innerW ca slw r h L hL l hl
    | cons r2 rest2 =>
      intro L hL l hl
      unfold sectionsFor at hL
      split at hL
      · rename_i s more heq1 heq2
        have hL2 := (Option.some.inj hL).symm
        subst hL2
        rcases List.mem_append.mp hl with h3 | h3
        rcases List.mem_append.mp h3 with h4 | h4
        · exact sectionFor_width θ innerW ca slw r h s heq1 l h4
        · rw [List.eq_of_mem_replicate h4]
          exact visibleWidth_emptyRow θ innerW
        · exact ih more heq2 l h3
      · exact absurd hL (by simp)

theorem panelBody_width (θ : Theme) (innerW ca : ℕ) (st : RState) (rs : List ProviderUsage)
    (h : ca + 6 = innerW + 2) :
    ∀ L : List SText, panelBody θ innerW ca st rs = some L →
      ∀ l ∈ L, visibleWidth l = innerW + 2 := by
  intro L hL l hl
  cases st with
  | loading =>
    simp only [panelBody, Option.some.injEq] at hL
    subst hL
    rcases List.mem_singleton.mp hl with rfl
    rw [visibleWidth_panelRow]
    omega
  | error =>
    simp only [panelBody, Option.some.injEq] at hL
    subst hL
    rcases List.mem_singleton.mp hl with rfl
    rw [visibleWidth_panelRow]
    omega
  | done =>
    exact sectionsFor_width θ innerW ca (sharedLW rs) h rs L hL l hl

theorem visibleWidth_border (θ : Theme) (lc rc : String) (n : ℕ)
    (hl : lc.length = 1) (hr : rc.length = 1) :
    visibleWidth (θ.fg "border" (vstr (lc ++ repStr "─" n ++ rc))) = n + 2 := by
  rw [visibleWidth_fg, visibleWidth_vstr, String.length_append, String.length_append,
    repStr_length, hl, hr]
  have : ("─" : String).length = 1 := rfl
  rw [this]
  omega

/-- C3 counterexample: at target width 19 the footer row of the loading
panel is 20 visible columns wide — the fixed close hint and the border and
padding exceed the width, and the exact-width footer row never truncates —
so not every line is the target width. -/
theorem renderPanel_width19_overflow :
    (renderPanel 19 concreteTheme .loading []).map (fun L => L.map visibleWidth) =
      some [19, 19, 19, 19, 19, 19, 20, 19, 19] := by
  rfl

/-- C3 amended: for every target width of at least 20, every render state,
every results list, and every width-preserving theme, every line renderPanel
produces is exactly the target width in visible columns, escape sequences
counting zero. -/
theorem renderPanel_exact_width (w : ℕ) (θ : Theme) (st : RState) (rs : List ProviderUsage)
    (hw : 20 ≤ w) :
    ((renderPanel w θ st rs).getD []).map visibleWidth =
      List.replicate ((renderPanel w θ st rs).getD []).length w := by
  rcases hp : renderPanel w θ st rs with _ | L
  · simp
  · simp only [Option.getD_some]
    have hall : ∀ l ∈ L, visibleWidth l = w := by
      intro l hl
      simp only [renderPanel] at hp
      rcases hb : panelBody θ (w - 2) (w - 2 - contentPadding * 2) st rs with _ | body <;>
        rw [hb] at hp
      · exact absurd hp (by simp)
      · have hp2 : L = _ := (Option.some.inj hp).symm
        subst hp2
        have hcp : contentPadding = 2 := rfl
        have hvp : verticalPadding = 2 := rfl
        have hbep : bottomEdgePadding = 1 := rfl
        have hca6 : (w - 2 - contentPadding * 2) + 6 = (w - 2) + 2 := by
          rw [hcp]; omega
        simp only [List.mem_append, List.mem_singleton, List.mem_replicate] at hl
        rcases hl with ((((((hl | hl) | hl) | hl) | hl) | hl) | hl)
        · subst hl
          rw [visibleWidth_border θ "╭" "╮" (w - 2) rfl rfl]
          omega
        · rw [hl.2]
          rw [visibleWidth_emptyRow]
          omega
        · have := panelBody_width θ (w - 2) (w - 2 - contentPadding * 2) st rs hca6 body hb l hl
          omega
        · rw [hl.2]
          rw [visibleWidth_emptyRow]
          omega
        · subst hl
          rw [visibleWidth_footerRow θ (w - 2 - contentPadding * 2) (by rw [hcp]; omega)]
          rw [hcp]
          omega
        · rw [hl.2]
          rw [visibleWidth_emptyRow]
          omega
        · subst hl
          rw [visibleWidth_border θ "╰" "╯" (w - 2) rfl rfl]
          omega
    have hme : ∀ b ∈ L.map visibleWidth, b = w := by
      intro b hb
      obtain ⟨l, hl, rfl⟩ := List.mem_map.mp hb
      exact hall l hl
    have hrep := (@List.eq_replicate_length ℕ w (L.map visibleWidth)).mpr hme
    rw [hrep, List.length_map]

/-- C3 amended witness: the loading panel at width 20. -/
theorem renderPanel_exact_width_w :
    ((renderPanel 20 concreteTheme .loading []).getD []).map visibleWidth =
      List.replicate ((renderPanel 20 concreteTheme .loading []).getD []).length 20 :=
  renderPanel_exact_width 20 concreteTheme .loading [] (by decide)

end PiUsage
